import Mathlib

/-!
Verification of the submarine multistream framing protocol and projection
pipeline, shallowly embedded from the C++ sources.

Bytes are modelled as `Nat` values (< 256 where produced by an encoder);
32-bit header fields are little-endian, matching the native x86 byte order
used by both ends (`*(int*)&buf[k]` in the source). Machine `int` values are
modelled as `Int` with explicit reduction modulo 2^32 where overflow matters.
Floating-point quantities of the projection pipeline are modelled as `ℚ`;
the trigonometric functions, evaluated only at points irrelevant to the
verified guards, are abstract parameters.
-/

set_option maxRecDepth 100000

namespace Submarine

/-- Little-endian byte decomposition of the low 32 bits of a natural number,
as written by `*(int*)&packet[k] = v` on x86. -/
def le32 (u : Nat) : List Nat :=
  [u % 256, u / 256 % 256, u / 65536 % 256, u / 16777216 % 256]

/-- The 4 bytes a C `int` occupies in memory (two's complement, little-endian). -/
def i32Bytes (i : Int) : List Nat :=
  le32 (i % 4294967296).toNat

/-- Read a little-endian 32-bit unsigned value from the first four bytes. -/
def readU32 : List Nat → Nat
  | b0 :: b1 :: b2 :: b3 :: _ => b0 + 256 * b1 + 65536 * b2 + 16777216 * b3
  | _ => 0

/-- Reinterpret a 32-bit unsigned value as a signed C `int`. -/
def asI32 (u : Nat) : Int :=
  if u % 4294967296 < 2147483648 then (u % 4294967296 : Int)
  else (u % 4294967296 : Int) - 4294967296

/-- `*(int*)&buf[off]` : read a C `int` at byte offset `off`. -/
def readI32 (buf : List Nat) (off : Nat) : Int :=
  asI32 (readU32 (buf.drop off))

theorem le32_length (u : Nat) : (le32 u).length = 4 := rfl

theorem i32Bytes_length (i : Int) : (i32Bytes i).length = 4 := rfl

theorem readU32_le32_append (u : Nat) (rest : List Nat) :
    readU32 (le32 u ++ rest) = u % 4294967296 := by
  simp only [le32, List.cons_append, List.nil_append, readU32]
  omega

theorem readI32_i32Bytes (i : Int) (rest : List Nat)
    (h1 : -2147483648 ≤ i) (h2 : i < 2147483648) :
    asI32 (readU32 (i32Bytes i ++ rest)) = i := by
  simp only [i32Bytes, readU32_le32_append, asI32]
  split <;> omega

/-!
## Datagram receive paths

`UDPReceiver::receivePacket` (submarine_receiver_depth3d.cpp): reads one
datagram into a 65536-byte buffer (so at most 65536 bytes of the datagram are
seen), requires `n ≥ 12`, parses `[frame_id(4)][frame_type(4)][data_size(4)]`,
range-checks `data_size`, and copies bytes `12..n` — the actually-received
bytes, not `data_size` bytes. No check of `frame_type` and no check of
`data_size` against `n - 12` is performed.
-/

/-- `UDPReceiver::receivePacket` of submarine_receiver_depth3d.cpp,
returning `(frame_id, frame_type, payload)` on success. -/
def receivePacket (dgram : List Nat) : Option (Int × Int × List Nat) :=
  let buf := dgram.take 65536
  if buf.length < 12 then none
  else
    let frame_id := readI32 buf 0
    let frame_type := readI32 buf 4
    let data_size := readI32 buf 8
    if data_size ≤ 0 ∨ data_size > 5000000 then none
    else some (frame_id, frame_type, buf.drop 12)

/-- `UDPReceiver::receiveFrame` of submarine_receiver.cpp up to the codec
boundary: header parse, `frame_type` enum check, and the JPEG byte slice
handed to the external codec. The parsed `data_size` is never used. -/
def receiveFrameSlice (dgram : List Nat) : Option (Int × List Nat) :=
  let buf := dgram.take 65536
  if buf.length < 12 then none
  else
    let frame_type := readI32 buf 4
    if frame_type < 0 ∨ frame_type > 3 then none
    else some (frame_type, buf.drop 12)

/-- `UDPReceiver::receiveFrame` of color_receiver.cpp up to the codec
boundary: 8-byte header `[frame_id(4)][data_size(4)]`, `data_size`
range check, slice of bytes `8..n`. -/
def colorReceiveFrameSlice (dgram : List Nat) : Option (Int × List Nat) :=
  let buf := dgram.take 65536
  if buf.length < 8 then none
  else
    let frame_id := readI32 buf 0
    let data_size := readI32 buf 4
    if data_size ≤ 0 ∨ data_size > 2000000 then none
    else some (frame_id, buf.drop 8)

/-- `UDPReceiver::receiveRawFrame` of depth_3d_receiver.cpp up to the codec
boundary: 8-byte header `[frame_id(4)][data_size(4)]`, `data_size` range
check `(0, 4000000]`, slice of bytes `8..n`. -/
def depth3dRawReceiveSlice (dgram : List Nat) : Option (Int × List Nat) :=
  let buf := dgram.take 65536
  if buf.length < 8 then none
  else
    let frame_id := readI32 buf 0
    let data_size := readI32 buf 4
    if data_size ≤ 0 ∨ data_size > 4000000 then none
    else some (frame_id, buf.drop 8)

/-- The datagram receive of udp_switchable_receiver.cpp's main loop up to the
codec boundary: requires `n ≥ 12`, parses
`[frame_id(4)][frame_type(4)][data_size(4)]` (`frame_type` is parsed but not
validated), requires `0 < data_size < 2000000`, slice of bytes `12..n`. -/
def udpSwitchableReceiveSlice (dgram : List Nat) : Option (Int × Int × List Nat) :=
  let buf := dgram.take 65536
  if buf.length < 12 then none
  else
    let frame_id := readI32 buf 0
    let frame_type := readI32 buf 4
    let data_size := readI32 buf 8
    if 0 < data_size ∧ data_size < 2000000 then
      some (frame_id, frame_type, buf.drop 12)
    else none

/-- `UDPReceiver::receivePacket` of submarine_receiver_raw.cpp: 8-byte header
`[frame_id(4)][data_size(4)]` read from a zero-initialized 2,000,000-byte
receive buffer whose first `n` bytes `recvfrom` overwrote. Unlike every other
datagram path, the payload slice is sized by the DECLARED `data_size`
(`tempBuf.begin() + 8` to `tempBuf.begin() + 8 + data_size`), not by `n`:
when `data_size > n - 8` the slice includes buffer bytes that were never
received (zeros), and for `data_size > 1999992` the C++ iterator range runs
past the allocation itself — an out-of-bounds read; the model truncates at
the allocation end, which is where the defined behavior stops. -/
def rawReceivePacket (dgram : List Nat) : Option (Int × List Nat) :=
  let recvd := dgram.take 2000000
  if recvd.length < 8 then none
  else
    let frame_id := readI32 recvd 0
    let data_size := readI32 recvd 4
    if data_size ≤ 0 ∨ data_size > 2000000 then none
    else
      some (frame_id,
        ((recvd ++ List.replicate (2000000 - recvd.length) 0).drop 8).take data_size.toNat)

/-- `UDPSender::sendRawData` of submarine_sender_depth3d.cpp: returns `none`
when nothing is sent (empty data), otherwise the single datagram
`[frame_id(4)][frame_type(4)][data_size(4)][payload]`. -/
def sendRawData (data : List Nat) (frame_id frame_type : Int) : Option (List Nat) :=
  if data.isEmpty then none
  else some (i32Bytes frame_id ++ i32Bytes frame_type ++ i32Bytes (data.length : Int) ++ data)

/-!
## Stream-discipline channel model

A TCP channel is the byte stream still to be delivered plus a schedule
giving, per successive `recv` call, the maximum number of bytes that call
returns (a short read). An exhausted schedule, a zero schedule entry, or an
exhausted stream makes `recv` return 0 bytes — the `n <= 0` case of the
source, covering disconnect, error and timeout alike.
-/

structure Chan where
  stream : List Nat
  sizes : List Nat
  deriving DecidableEq

/-- One `recv(sock, buf, req, 0)` call: returns the delivered chunk (a prefix
of the remaining stream of length ≤ `req`) and the advanced channel. -/
def recvC (c : Chan) (req : Nat) : List Nat × Chan :=
  match c.sizes with
  | [] => ([], c)
  | s :: rest =>
    let k := min req (min s c.stream.length)
    (c.stream.take k, ⟨c.stream.drop k, rest⟩)

/-- The accumulation loop `while (total < need) { n = recv(...); if (n <= 0)
fail; total += n; }`. Each successful read delivers at least one byte, so
`fuel = need` iterations always suffice; the loop is run with that fuel. -/
def recvExact : Nat → Chan → Nat → Option (List Nat × Chan)
  | _, c, 0 => some ([], c)
  | 0, _, _ + 1 => none
  | fuel + 1, c, need + 1 =>
    let r := recvC c (need + 1)
    if r.1.length = 0 then none
    else
      match recvExact fuel r.2 (need + 1 - r.1.length) with
      | none => none
      | some (rest, c2) => some (r.1 ++ rest, c2)

/-- `TCPReceiver::receiveFrame` of submarine_receiver_tcp.cpp up to the codec
boundary: loop for the 12-byte header, validate `frame_type ∈ [0,3]` and
`data_size ∈ (0, 2000000]`, then loop for exactly `data_size` payload bytes. -/
def tcpReceiveFrame (c : Chan) : Option (Int × Int × List Nat × Chan) :=
  match recvExact 12 c 12 with
  | none => none
  | some (hdr, c1) =>
    let frame_id := readI32 hdr 0
    let frame_type := readI32 hdr 4
    let data_size := readI32 hdr 8
    if frame_type < 0 ∨ frame_type > 3 ∨ data_size ≤ 0 ∨ data_size > 2000000 then none
    else
      match recvExact data_size.toNat c1 data_size.toNat with
      | none => none
      | some (data, c2) => some (frame_id, frame_type, data, c2)

/-- `SwitchableReceiver::receiveFrame` of switchable_receiver.cpp up to the
codec boundary: the 5-byte compact header `[frame_type(1)][data_size(4)]` is
read by a SINGLE `recv` call and any result other than exactly 5 bytes fails;
the payload is then accumulated in a loop of exactly `data_size` bytes. -/
def switchableReceiveFrame (c : Chan) : Option (Int × List Nat × Chan) :=
  let r := recvC c 5
  if r.1.length ≠ 5 then none
  else
    let frame_type : Int := (r.1.headD 0 : Nat)
    let data_size := asI32 (readU32 (r.1.drop 1))
    if data_size ≤ 0 ∨ data_size > 5000000 then none
    else
      match recvExact data_size.toNat r.2 data_size.toNat with
      | none => none
      | some (data, c2) => some (frame_type, data, c2)

theorem recvExact_sound (fuel : Nat) :
    ∀ (c : Chan) (need : Nat) (out : List Nat) (c2 : Chan),
      recvExact fuel c need = some (out, c2) →
      out = c.stream.take need ∧ c2.stream = c.stream.drop need ∧
      need ≤ c.stream.length ∧ out.length = need := by
  induction fuel with
  | zero =>
    intro c need out c2 h
    cases need with
    | zero =>
      simp only [recvExact, Option.some.injEq, Prod.mk.injEq] at h
      simp [← h.1, ← h.2]
    | succ n => simp [recvExact] at h
  | succ fuel ih =>
    intro c need out c2 h
    cases need with
    | zero =>
      simp only [recvExact, Option.some.injEq, Prod.mk.injEq] at h
      simp [← h.1, ← h.2]
    | succ n =>
      simp only [recvExact] at h
      split at h
      · exact absurd h (by simp)
      · rename_i hlen
        split at h
        · exact absurd h (by simp)
        · rename_i rest c3 hrec
          obtain ⟨hout, hc⟩ := Option.some.injEq _ _ ▸ Prod.mk.injEq _ _ _ _ ▸ (Option.some.inj h)
          subst hc
          -- analyse the single recv
          rcases hs : c.sizes with _ | ⟨s, srest⟩
          · simp [recvC, hs] at hlen
          · have hr1 : (recvC c (n + 1)).1 = c.stream.take (min (n+1) (min s c.stream.length)) := by
              simp [recvC, hs]
            have hr2 : (recvC c (n + 1)).2.stream = c.stream.drop (min (n+1) (min s c.stream.length)) := by
              simp [recvC, hs]
            set k := min (n+1) (min s c.stream.length) with hk
            have hkle : k ≤ c.stream.length := by omega
            have hklen : (recvC c (n + 1)).1.length = k := by
              rw [hr1]; simp [List.length_take]; omega
            have hkpos : 0 < k := by
              rcases Nat.eq_zero_or_pos k with h0 | h0
              · rw [hklen] at hlen; omega
              · exact h0
            have hkn : k ≤ n + 1 := by omega
            obtain ⟨ihout, ihc, ihlen, ihcount⟩ := ih _ _ _ _ hrec
            rw [hklen] at ihout ihc ihlen ihcount
            rw [hr2] at ihout ihc ihlen
            have hout2 : out = (recvC c (n + 1)).1 ++ rest := (Option.some.inj hout).symm
            refine ⟨?_, ?_, ?_, ?_⟩
            · rw [hout2, hr1, ihout]
              have hsum : n + 1 = k + (n + 1 - k) := by omega
              rw [hsum, List.take_add, Nat.add_sub_cancel_left]
            · rw [ihc, List.drop_drop]
              congr 1
              omega
            · rw [List.length_drop] at ihlen
              omega
            · rw [hout2]
              simp only [List.length_append, hklen, ihcount]
              omega

/-!
## FrameBuffer (per-type last-value-wins cache with TTL)

`FrameBuffer` of submarine_receiver_depth3d.cpp: a `std::map<int, TimedFrame>`
modelled as an association list with unique keys; `update` is `frames[t] = {v,
now}` (overwrite-or-insert), `get` returns the entry only while its age in
milliseconds is strictly below `timeout_ms = 2000`. The value type is left
abstract (the source stores a `cv::Mat` or raw bytes).
-/

def FrameMap (α : Type) : Type := List (Int × α × Nat)

/-- `FrameBuffer::update` / `updateRaw`: `frames[frameType] = {v, now}`. -/
def fbUpdate {α : Type} : FrameMap α → Int → α → Nat → FrameMap α
  | [], t, v, now => [(t, v, now)]
  | (u, e) :: rest, t, v, now =>
    if u = t then (t, v, now) :: rest else (u, e) :: fbUpdate rest t v now

/-- `frames.find(frameType)` on the ordered map. -/
def fbFind {α : Type} : FrameMap α → Int → Option (α × Nat)
  | [], _ => none
  | (u, e) :: rest, t => if u = t then some e else fbFind rest t

/-- `FrameBuffer::get` / `getRaw` at current time `now` (ms): the stored value
while `age < 2000`, otherwise the empty result. -/
def fbGet {α : Type} (s : FrameMap α) (t : Int) (now : Nat) : Option α :=
  match fbFind s t with
  | none => none
  | some (v, ts) => if now - ts < 2000 then some v else none

theorem fbFind_fbUpdate_self {α : Type} (s : FrameMap α) (t : Int) (v : α) (now : Nat) :
    fbFind (fbUpdate s t v now) t = some (v, now) := by
  induction s with
  | nil => simp [fbUpdate, fbFind]
  | cons hd rest ih =>
    obtain ⟨u, e⟩ := hd
    by_cases hu : u = t <;> simp [fbUpdate, fbFind, hu, ih]

/-!
## PointCloudViewer camera state

`PointCloudViewer` of submarine_receiver_depth3d.cpp: fields `yaw = 0`,
`pitch = 0.5`, `zoom = 150`; `rotate` adds the deltas and clamps pitch to
`[-1.5, 1.5]`; `setZoom` clamps to `[50, 500]`. Floats are modelled as `ℚ`.
-/

structure Viewer where
  yaw : ℚ
  pitch : ℚ
  zoom : ℚ

/-- The field initializers of `PointCloudViewer`. -/
def viewerInit : Viewer := ⟨0, 1/2, 150⟩

/-- `PointCloudViewer::rotate(dy, dp)`. -/
def rotate (s : Viewer) (dy dp : ℚ) : Viewer :=
  { yaw := s.yaw + dy
    pitch := max (-(3/2)) (min (3/2) (s.pitch + dp))
    zoom := s.zoom }

/-- `PointCloudViewer::setZoom(z)`. -/
def setZoom (s : Viewer) (z : ℚ) : Viewer :=
  { s with zoom := max 50 (min 500 z) }

/-- A call to one of the two mutators. -/
inductive CamOp where
  | rot : ℚ → ℚ → CamOp
  | zoomTo : ℚ → CamOp

def applyOp (s : Viewer) : CamOp → Viewer
  | .rot dy dp => rotate s dy dp
  | .zoomTo z => setZoom s z

def applyOps (s : Viewer) (ops : List CamOp) : Viewer := ops.foldl applyOp s

/-- The camera-parameter invariant stated by the spec. -/
def viewerInv (s : Viewer) : Prop :=
  -(3/2) ≤ s.pitch ∧ s.pitch ≤ 3/2 ∧ 50 ≤ s.zoom ∧ s.zoom ≤ 500

instance (s : Viewer) : Decidable (viewerInv s) := by
  unfold viewerInv; infer_instance

/-!
## Projections

Floats as `ℚ`; `sin`, `cos`, `tan` are abstract parameters (the verified
guards never depend on their values). `(int)` casts truncate toward zero.
-/

/-- C `(int)` cast of a float: truncation toward zero. -/
def intTrunc (q : ℚ) : Int := if 0 ≤ q then ⌊q⌋ else ⌈q⌉

/-- `depth_m = (depth_val * scale) / 1000.0f` of Map2D::update
(submarine_multistream.cpp). -/
def depthM (depth_val : Nat) (scale : ℚ) : ℚ := ((depth_val : ℚ) * scale) / 1000

/-- The admission guards of the Map2D::update sample loop:
`if (depth_val == 0) continue;` and
`if (depth_m > max_range || depth_m < 0.2f) continue;` with `max_range = 4`. -/
def map2dAdmit (depth_val : Nat) (scale : ℚ) : Bool :=
  if depth_val = 0 then false
  else if depthM depth_val scale > 4 ∨ depthM depth_val scale < 1/5 then false
  else true

/-- One iteration of the Map2D::update sample loop (submarine_multistream.cpp,
canvas 640x480, `max_range = 4`, FOV 60 degrees passed in as the rational
`fov`): `none` when the sample contributes no pixel, otherwise the written
pixel position and the intensity `1 - depth_m/max_range` that determines its
color. -/
def map2dSample (tanQ : ℚ → ℚ) (fov : ℚ) (depth_width : Nat) (scale : ℚ)
    (x : Nat) (depth_val : Nat) : Option (Int × Int × ℚ) :=
  if map2dAdmit depth_val scale then
    let dm := depthM depth_val scale
    let angle := ((x : ℚ) - (depth_width : ℚ) / 2) / (depth_width : ℚ) * fov
    let x_pos := dm * tanQ angle
    let map_x : Int := 320 + intTrunc (x_pos * 640 / (4 * 2))
    let map_y : Int := intTrunc (dm * 480 / 4)
    if 0 ≤ map_x ∧ map_x < 640 ∧ 0 ≤ map_y ∧ map_y < 480 then
      some (map_x, map_y, 1 - dm / 4)
    else none
  else none

/-- The rotated-and-offset forward coordinate of one sample in
`PointCloudViewer::project`: `rz = fx*syaw*spitch + fy*cyaw*spitch +
fz*cpitch` followed by `rz += 2.0f`. -/
def rzOf (sinQ cosQ tanQ : ℚ → ℚ) (yaw pitch : ℚ) (dw dh : Nat)
    (x y : Nat) (depth_val : Nat) : ℚ :=
  let depth := (depth_val : ℚ) / 1000
  let fx := depth * tanQ (((x : ℚ) - (dw : ℚ) / 2) / (dw : ℚ) * 1)
  let fy := -depth
  let fz := depth * tanQ (((y : ℚ) - (dh : ℚ) / 2) / (dw : ℚ) * 1)
  fx * sinQ yaw * sinQ pitch + fy * cosQ yaw * sinQ pitch + fz * cosQ pitch + 2

/-- One iteration of the `PointCloudViewer::project` sample loop
(submarine_receiver_depth3d.cpp): `none` when the sample writes no pixel,
otherwise the written pixel position and the normalized depth that determines
its color. Guards in source order: `depth_val == 0 || depth_val > 5000`,
then `rz <= 0.1f` after rotation and the fixed `+2.0f` forward offset, then
the canvas-bounds check. -/
def projectPoint (sinQ cosQ tanQ : ℚ → ℚ) (yaw pitch zoom : ℚ) (w h dw dh : Nat)
    (x y : Nat) (depth_val : Nat) : Option (Int × Int × ℚ) :=
  if depth_val = 0 ∨ depth_val > 5000 then none
  else
    let depth := (depth_val : ℚ) / 1000
    let fx := depth * tanQ (((x : ℚ) - (dw : ℚ) / 2) / (dw : ℚ) * 1)
    let fy := -depth
    let rx := fx * cosQ yaw - fy * sinQ yaw
    let ry := fx * sinQ yaw * cosQ pitch + fy * cosQ yaw * cosQ pitch -
      (depth * tanQ (((y : ℚ) - (dh : ℚ) / 2) / (dw : ℚ) * 1)) * sinQ pitch
    let rz := rzOf sinQ cosQ tanQ yaw pitch dw dh x y depth_val
    if rz ≤ 1/10 then none
    else
      let px := intTrunc ((w : ℚ) / 2 + rx / rz * zoom)
      let py := intTrunc ((h : ℚ) / 2 + ry / rz * zoom)
      if 0 ≤ px ∧ px < (w : Int) ∧ 0 ≤ py ∧ py < (h : Int) then
        some (px, py, min 1 (depth / 4))
      else none

/-!
## Map3D accumulation (submarine_3d_viz.cpp)

The point/color accumulation step of `Map3D::update`, lines 117-128: when
`accumulate` is on and the frame produced points, append them and evict the
oldest entries from the front of both buffers once `maxPoints = 100000` is
exceeded.
-/

def map3dAccum {α β : Type} (accumulate : Bool) (oldP : List α) (oldC : List β)
    (newP : List α) (newC : List β) : List α × List β :=
  if accumulate ∧ ¬ newP.isEmpty then
    let P := oldP ++ newP
    let C := oldC ++ newC
    if P.length > 100000 then
      (P.drop (P.length - 100000), C.drop (P.length - 100000))
    else (P, C)
  else (oldP, oldC)

/-!
## Claim theorems
-/

/-- C1: the decoder is claimed to reject a datagram whose `frame_type` is
outside the known enumeration or whose declared `payload_size` exceeds the
trailing bytes actually present. `UDPReceiver::receivePacket` does neither
check: a 212-byte datagram with `frame_id = 7`, out-of-enum `frame_type =
999`, declared `payload_size = 500` and only 200 trailing bytes is ACCEPTED,
with the 200 actually-received bytes as payload. (The buffer end is indeed
never overread — the slice is `[12, n)` — but the unit is not rejected.) -/
theorem receivePacket_accepts_truncated_and_unknown_type :
    receivePacket (i32Bytes 7 ++ i32Bytes 999 ++ i32Bytes 500 ++ List.range 200) =
      some (7, 999, List.range 200) := by
  decide

/-- C2: header round-trip. For every `frame_id` representable as a C `int`,
every `frame_type` of the known enumeration, and every nonempty payload that
fits a single datagram (so that `recvfrom`'s 65536-byte buffer does not
truncate it), encoding with `UDPSender::sendRawData` and decoding the intact
datagram with `UDPReceiver::receivePacket` returns exactly the original
`frame_id`, `frame_type` and payload bytes. -/
theorem sendRawData_receivePacket_roundTrip (fid ft : Int) (data : List Nat)
    (hf1 : -2147483648 ≤ fid) (hf2 : fid < 2147483648)
    (ht : ft = 1 ∨ ft = 2 ∨ ft = 3)
    (hd1 : data ≠ []) (hd2 : data.length ≤ 65524) :
    (sendRawData data fid ft).bind receivePacket = some (fid, ft, data) := by
  have hne : data.isEmpty = false := by
    cases data with
    | nil => exact absurd rfl hd1
    | cons a l => rfl
  rw [sendRawData, hne]
  simp only [Bool.false_eq_true, if_false, Option.bind_some]
  set pkt := i32Bytes fid ++ i32Bytes ft ++ i32Bytes (data.length : Int) ++ data with hpkt
  have hlen : pkt.length = 12 + data.length := by
    simp [hpkt, i32Bytes_length]
    omega
  have htake : pkt.take 65536 = pkt := List.take_of_length_le (by omega)
  have hdlen : 0 < data.length := by
    cases data with
    | nil => exact absurd rfl hd1
    | cons a l => simp
  have hid : readI32 pkt 0 = fid := by
    rw [readI32, List.drop_zero, hpkt, List.append_assoc, List.append_assoc]
    exact readI32_i32Bytes fid _ hf1 hf2
  have hdrop4 : pkt.drop 4 = i32Bytes ft ++ (i32Bytes (data.length : Int) ++ data) := by
    rw [hpkt, List.append_assoc, List.append_assoc]
    exact List.drop_left' (i32Bytes_length fid)
  have hty : readI32 pkt 4 = ft := by
    rw [readI32, hdrop4]
    refine readI32_i32Bytes ft _ ?_ ?_ <;> rcases ht with h | h | h <;> omega
  have hdrop8 : pkt.drop 8 = i32Bytes (data.length : Int) ++ data := by
    have h8 : ((i32Bytes fid ++ i32Bytes ft) : List Nat).length = 8 := by
      simp [i32Bytes_length]
    rw [hpkt, List.append_assoc]
    exact List.drop_left' h8
  have hsz : readI32 pkt 8 = (data.length : Int) := by
    rw [readI32, hdrop8]
    exact readI32_i32Bytes _ _ (by omega) (by omega)
  have hdrop12 : pkt.drop 12 = data := by
    have h12 : ((i32Bytes fid ++ i32Bytes ft ++ i32Bytes (data.length : Int)) : List Nat).length = 12 := by
      simp [i32Bytes_length]
    rw [hpkt]
    exact List.drop_left' h12
  simp only [receivePacket, Option.some_bind, htake]
  rw [if_neg (by omega), hsz, if_neg (by omega), hid, hty, hdrop12]

/-- Witness for C2 at `frame_id = 5`, `frame_type = 3`, payload `[9, 8, 7]`. -/
theorem sendRawData_receivePacket_roundTrip_w :
    (sendRawData [9, 8, 7] 5 3).bind receivePacket = some (5, 3, [9, 8, 7]) :=
  sendRawData_receivePacket_roundTrip 5 3 [9, 8, 7] (by decide) (by decide)
    (by decide) (by decide) (by decide)

theorem recvExact_nil_sizes (fuel need : Nat) (c : Chan)
    (hn : need ≠ 0) (hs : c.sizes = []) : recvExact fuel c need = none := by
  cases fuel with
  | zero =>
    cases need with
    | zero => exact absurd rfl hn
    | succ n => rfl
  | succ f =>
    cases need with
    | zero => exact absurd rfl hn
    | succ n => simp [recvExact, recvC, hs]

/-- C3 (corrected): stream-discipline receive. For `TCPReceiver::receiveFrame`
the claim holds: (1) whenever the operation succeeds, the payload is exactly
the declared number of bytes taken verbatim from the stream right after the
12-byte header — bit-identical reconstruction across arbitrary short reads,
never touching bytes beyond those delivered; (2) the concrete scenario —
header `{frame_id 5, frame_type 1, payload_size 100}` with the 100 payload
bytes delivered in short reads of 40/40/20 — reconstructs the exact 100-byte
payload; (3) a channel that delivers no further bytes (the `recv <= 0` case)
makes the operation fail. But (4), contrary to the claim's universal "loops
until the full header size is obtained", `SwitchableReceiver::receiveFrame`
reads its 5-byte header in a single call and fails whenever that one read is
short. -/
theorem tcp_stream_receive_props :
    (∀ (c : Chan) (fid ft : Int) (data : List Nat) (c2 : Chan),
        tcpReceiveFrame c = some (fid, ft, data, c2) →
        data = (c.stream.drop 12).take data.length ∧
        12 + data.length ≤ c.stream.length ∧
        c2.stream = c.stream.drop (12 + data.length)) ∧
    (tcpReceiveFrame
        ⟨i32Bytes 5 ++ i32Bytes 1 ++ i32Bytes 100 ++ List.range 100, [12, 40, 40, 20]⟩ =
      some (5, 1, List.range 100, ⟨[], []⟩)) ∧
    (∀ c : Chan, c.sizes = [] → tcpReceiveFrame c = none) ∧
    (∀ c : Chan, (recvC c 5).1.length ≠ 5 → switchableReceiveFrame c = none) := by
  refine ⟨?_, by decide, ?_, ?_⟩
  · intro c fid ft data c2 h
    unfold tcpReceiveFrame at h
    rcases h1 : recvExact 12 c 12 with _ | ⟨hdr, c1⟩
    · rw [h1] at h; exact absurd h (by simp)
    · rw [h1] at h
      simp only at h
      split at h
      · exact absurd h (by simp)
      · rcases h2 : recvExact (readI32 hdr 8).toNat c1 (readI32 hdr 8).toNat with
          _ | ⟨d, cc⟩
        · rw [h2] at h; exact absurd h (by simp)
        · rw [h2] at h
          simp only [Option.some.injEq, Prod.mk.injEq] at h
          obtain ⟨-, -, hd, hc⟩ := h
          subst hd hc
          obtain ⟨hh1, hh2, hh3, hh4⟩ := recvExact_sound 12 c 12 hdr c1 h1
          obtain ⟨hp1, hp2, hp3, hp4⟩ :=
            recvExact_sound (readI32 hdr 8).toNat c1 (readI32 hdr 8).toNat _ _ h2
          rw [hh2] at hp1 hp2 hp3
          rw [List.length_drop] at hp3
          refine ⟨?_, ?_, ?_⟩
          · rw [hp4]; exact hp1
          · omega
          · rw [hp2, List.drop_drop, hp4, Nat.add_comm]
  · intro c hsz
    unfold tcpReceiveFrame
    rw [recvExact_nil_sizes 12 12 c (by omega) hsz]
  · intro c hlen
    simp [switchableReceiveFrame, hlen]

/-- Counterexample to C3 as stated: a switchable-session stream holding one
complete, valid compact-header frame (`frame_type 2`, `payload_size 10`, 10
payload bytes), delivered by positive short reads of 3/2/10 bytes. A reader
that loops until the full 5-byte header is obtained would get it — the second
conjunct shows the accumulation loop run on the same channel obtains all 5
header bytes — but `SwitchableReceiver::receiveFrame` fails on the short
first read. -/
theorem switchable_short_header_read_fails :
    switchableReceiveFrame ⟨2 :: (le32 10 ++ List.range 10), [3, 2, 10]⟩ = none ∧
    (recvExact 5 ⟨2 :: (le32 10 ++ List.range 10), [3, 2, 10]⟩ 5).isSome = true := by
  decide

/-- Witness for C3: the fail-on-disconnect conjunct applied to a concrete
closed channel. -/
theorem tcp_stream_receive_props_w : tcpReceiveFrame ⟨List.range 20, []⟩ = none :=
  tcp_stream_receive_props.2.2.1 ⟨List.range 20, []⟩ rfl

/-- C4: cache staleness. `get(type)` immediately after `put(type, v)` returns
`v`; `get` returns the stored value exactly when an entry is present with age
`now - timestamp < 2000` ms, and returns the absent result both when no entry
exists and when the entry is stale (`age ≥ 2000 ms`) — a stale value is never
returned. -/
theorem frameCache_ttl (α : Type) :
    (∀ (s : FrameMap α) (t : Int) (v : α) (now : Nat),
        fbGet (fbUpdate s t v now) t now = some v) ∧
    (∀ (s : FrameMap α) (t : Int) (now : Nat) (v : α) (ts : Nat),
        fbFind s t = some (v, ts) → now - ts < 2000 → fbGet s t now = some v) ∧
    (∀ (s : FrameMap α) (t : Int) (now : Nat) (v : α) (ts : Nat),
        fbFind s t = some (v, ts) → 2000 ≤ now - ts → fbGet s t now = none) ∧
    (∀ (s : FrameMap α) (t : Int) (now : Nat),
        fbFind s t = none → fbGet s t now = none) := by
  refine ⟨?_, ?_, ?_, ?_⟩
  · intro s t v now
    simp [fbGet, fbFind_fbUpdate_self]
  · intro s t now v ts hf hage
    simp [fbGet, hf, hage]
  · intro s t now v ts hf hage
    simp [fbGet, hf]
    omega
  · intro s t now hf
    simp [fbGet, hf]

/-- Witness for C4: a fresh entry is returned; the same entry read 2000 ms
after its timestamp is absent. -/
theorem frameCache_ttl_w :
    fbGet (fbUpdate ([] : FrameMap Nat) 1 42 100) 1 100 = some 42 ∧
    fbGet ([(1, 42, 100)] : FrameMap Nat) 1 2100 = none :=
  ⟨(frameCache_ttl Nat).1 [] 1 42 100,
   (frameCache_ttl Nat).2.2.1 [(1, 42, 100)] 1 2100 42 100 (by decide) (by decide)⟩

theorem fbUpdate_countP_ne {α : Type} (s : FrameMap α) (t : Int) (v : α)
    (now : Nat) (u : Int) (hne : t ≠ u) :
    ((fbUpdate s t v now).countP fun e => e.1 == u) =
      s.countP fun e => e.1 == u := by
  induction s with
  | nil => simp [fbUpdate, List.countP_cons, hne]
  | cons hd rest ih =>
    obtain ⟨w, e⟩ := hd
    by_cases hw : w = t
    · subst hw
      simp [fbUpdate, List.countP_cons]
    · simp [fbUpdate, hw, List.countP_cons, ih]

theorem fbUpdate_countP_eq {α : Type} (s : FrameMap α) (v : α) (now : Nat) (u : Int) :
    ((fbUpdate s u v now).countP fun e => e.1 == u) ≤
      max 1 (s.countP fun e => e.1 == u) := by
  induction s with
  | nil => simp [fbUpdate, List.countP_cons]
  | cons hd rest ih =>
    obtain ⟨w, e⟩ := hd
    by_cases hw : w = u
    · subst hw
      simp [fbUpdate, List.countP_cons]
    · simp [fbUpdate, hw, List.countP_cons, ih]

/-- C7: the cache is last-value-wins. Reading immediately after
`put(t, A); put(t, B)` yields `B`; at any later time the read yields `B` or
the absent result, never `A`; and `put` preserves "at most one entry per
frame type" (it overwrites in place rather than adding an entry). -/
theorem frameCache_lastValueWins (α : Type) :
    (∀ (s : FrameMap α) (t : Int) (A B : α) (n1 n2 : Nat),
        fbGet (fbUpdate (fbUpdate s t A n1) t B n2) t n2 = some B) ∧
    (∀ (s : FrameMap α) (t : Int) (A B : α) (n1 n2 now : Nat),
        fbGet (fbUpdate (fbUpdate s t A n1) t B n2) t now = some B ∨
        fbGet (fbUpdate (fbUpdate s t A n1) t B n2) t now = none) ∧
    (∀ (s : FrameMap α) (t : Int) (v : α) (now : Nat) (u : Int),
        (s.countP fun e => e.1 == u) ≤ 1 →
        ((fbUpdate s t v now).countP fun e => e.1 == u) ≤ 1) := by
  refine ⟨?_, ?_, ?_⟩
  · intro s t A B n1 n2
    simp [fbGet, fbFind_fbUpdate_self]
  · intro s t A B n1 n2 now
    by_cases h : now - n2 < 2000
    · left; simp [fbGet, fbFind_fbUpdate_self, h]
    · right; simp [fbGet, fbFind_fbUpdate_self, h]
  · intro s t v now u hs
    by_cases ht : t = u
    · subst ht
      have := fbUpdate_countP_eq s v now t
      omega
    · rw [fbUpdate_countP_ne s t v now u ht]
      exact hs

/-- Witness for C7: `put(1, 7); put(1, 9); get(1)` returns `9`, and the
single-entry bound is preserved by a concrete overwrite. -/
theorem frameCache_lastValueWins_w :
    fbGet (fbUpdate (fbUpdate ([] : FrameMap Nat) 1 7 0) 1 9 5) 1 5 = some 9 ∧
    ((fbUpdate ([(1, 3, 0)] : FrameMap Nat) 1 4 7).countP fun e => e.1 == 1) ≤ 1 :=
  ⟨(frameCache_lastValueWins Nat).1 [] 1 7 9 0 5,
   (frameCache_lastValueWins Nat).2.2 [(1, 3, 0)] 1 4 7 1 (by decide)⟩

/-- C5: camera-parameter clamping. The constructed viewer satisfies the
invariant; `rotate` leaves `pitch ∈ [-1.5, 1.5]` and `setZoom` leaves
`zoom ∈ [50, 500]` unconditionally, from ANY state and with arbitrarily large
arguments; and every finite sequence of `rotate`/`setZoom` calls starting at
any camera state of the program (each such state satisfies the invariant,
the constructor establishing it) again satisfies the invariant. -/
theorem viewer_clamp_invariant :
    viewerInv viewerInit ∧
    (∀ (s : Viewer) (dy dp : ℚ),
        -(3/2) ≤ (rotate s dy dp).pitch ∧ (rotate s dy dp).pitch ≤ 3/2) ∧
    (∀ (s : Viewer) (z : ℚ), 50 ≤ (setZoom s z).zoom ∧ (setZoom s z).zoom ≤ 500) ∧
    (∀ s : Viewer, viewerInv s → ∀ ops : List CamOp, viewerInv (applyOps s ops)) := by
  have hrot : ∀ (s : Viewer) (dy dp : ℚ),
      -(3/2) ≤ (rotate s dy dp).pitch ∧ (rotate s dy dp).pitch ≤ 3/2 := by
    intro s dy dp
    exact ⟨le_max_left _ _, max_le (by norm_num) (min_le_left _ _)⟩
  have hzoom : ∀ (s : Viewer) (z : ℚ),
      50 ≤ (setZoom s z).zoom ∧ (setZoom s z).zoom ≤ 500 := by
    intro s z
    exact ⟨le_max_left _ _, max_le (by norm_num) (min_le_left _ _)⟩
  refine ⟨by constructor <;> norm_num [viewerInit], hrot, hzoom, ?_⟩
  intro s hs ops
  induction ops generalizing s with
  | nil => exact hs
  | cons op rest ih =>
    apply ih
    cases op with
    | rot dy dp =>
      exact ⟨(hrot s dy dp).1, (hrot s dy dp).2, hs.2.2.1, hs.2.2.2⟩
    | zoomTo z =>
      exact ⟨hs.1, hs.2.1, (hzoom s z).1, (hzoom s z).2⟩

/-- Witness for C5: a huge rotation followed by a huge zoom request starting
from the constructed viewer stays within the clamped ranges. -/
theorem viewer_clamp_invariant_w :
    viewerInv (applyOps viewerInit [CamOp.rot 100 100, CamOp.zoomTo 100000]) :=
  viewer_clamp_invariant.2.2.2 viewerInit (by norm_num [viewerInv, viewerInit])
    [CamOp.rot 100 100, CamOp.zoomTo 100000]

/-- C6: depth admission. A sample with `raw_value = 0` contributes no pixel,
neither to the 2D map nor to the 3D point cloud, for any scale and any
projector parameters; a sample whose `depth_m = raw_value * scale / 1000`
falls outside `[0.2, 4.0]` contributes no pixel to the 2D map; and the
concrete sample `raw_value = 2000` at `value_scale = 1` has `depth_m = 2`
and passes the 2D-map admission guards. -/
theorem depth_admission :
    (∀ (tanQ : ℚ → ℚ) (fov : ℚ) (dw : Nat) (scale : ℚ) (x : Nat),
        map2dSample tanQ fov dw scale x 0 = none) ∧
    (∀ (sinQ cosQ tanQ : ℚ → ℚ) (yaw pitch zoom : ℚ) (w h dw dh x y : Nat),
        projectPoint sinQ cosQ tanQ yaw pitch zoom w h dw dh x y 0 = none) ∧
    (∀ (tanQ : ℚ → ℚ) (fov : ℚ) (dw : Nat) (scale : ℚ) (x dv : Nat),
        (4 < depthM dv scale ∨ depthM dv scale < 1/5) →
        map2dSample tanQ fov dw scale x dv = none) ∧
    (map2dAdmit 2000 1 = true ∧ depthM 2000 1 = 2) := by
  refine ⟨?_, ?_, ?_, ⟨by norm_num [map2dAdmit, depthM], by norm_num [depthM]⟩⟩
  · intro tanQ fov dw scale x
    simp [map2dSample, map2dAdmit]
  · intro sinQ cosQ tanQ yaw pitch zoom w h dw dh x y
    simp [projectPoint]
  · intro tanQ fov dw scale x dv h
    have hadm : map2dAdmit dv scale = false := by
      by_cases h0 : dv = 0
      · simp [map2dAdmit, h0]
      · simp only [map2dAdmit, h0, if_false, if_pos h]
    simp [map2dSample, hadm]

/-- Witness for C6: `raw_value = 100000` at scale 1 has `depth_m = 100`,
outside the admissible range, and contributes no pixel to the 2D map. -/
theorem depth_admission_w :
    map2dSample (fun _ => 0) 1 4 1 2 100000 = none :=
  depth_admission.2.2.1 (fun _ => 0) 1 4 1 2 100000 (Or.inl (by norm_num [depthM]))

/-- C8: 3D visibility. For every depth sample and every yaw/pitch/zoom, a
point whose rotated-and-offset forward coordinate satisfies `rz ≤ 0.1` is
discarded before the perspective divide: `PointCloudViewer::project` writes
no pixel for it. -/
theorem project_rz_cull (sinQ cosQ tanQ : ℚ → ℚ) (yaw pitch zoom : ℚ)
    (w h dw dh x y dv : Nat)
    (hrz : rzOf sinQ cosQ tanQ yaw pitch dw dh x y dv ≤ 1/10) :
    projectPoint sinQ cosQ tanQ yaw pitch zoom w h dw dh x y dv = none := by
  by_cases hg : dv = 0 ∨ dv > 5000
  · simp [projectPoint, hg]
  · simp only [projectPoint]
    rw [if_neg hg, if_pos hrz]

/-- Witness for C8: with the trigonometric parameters fixed so that the valid
sample rotates to `rz = 0 ≤ 0.1`, no pixel is written. -/
theorem project_rz_cull_w :
    rzOf (fun _ => 0) (fun _ => 1) (fun _ => -2) 0 0 4 4 0 0 1000 ≤ 1/10 ∧
    projectPoint (fun _ => 0) (fun _ => 1) (fun _ => -2) 0 0 150 1280 360 4 4 0 0 1000 =
      none :=
  ⟨by norm_num [rzOf],
   project_rz_cull (fun _ => 0) (fun _ => 1) (fun _ => -2) 0 0 150 1280 360 4 4 0 0 1000
     (by norm_num [rzOf])⟩

/-- C9: accumulating 3D mode. Assuming the buffers were matched in length and
within the cap before the update, and that the frame's points and colors come
in matched pairs, the accumulation step of `Map3D::update` leaves point and
color buffers of equal length, never longer than `maxPoints = 100000`, and
both equal to the concatenation old-then-new with the same number of OLDEST
entries dropped from the front (FIFO eviction in matched pairs, exactly the
excess over the cap). -/
theorem map3d_accum_fifo (α β : Type) (oldP : List α) (oldC : List β)
    (newP : List α) (newC : List β)
    (h1 : oldP.length = oldC.length) (h2 : newP.length = newC.length)
    (h3 : oldP.length ≤ 100000) :
    map3dAccum true oldP oldC newP newC =
      ((oldP ++ newP).drop ((oldP ++ newP).length - 100000),
       (oldC ++ newC).drop ((oldP ++ newP).length - 100000)) ∧
    ((oldP ++ newP).drop ((oldP ++ newP).length - 100000)).length =
      ((oldC ++ newC).drop ((oldP ++ newP).length - 100000)).length ∧
    ((oldP ++ newP).drop ((oldP ++ newP).length - 100000)).length ≤ 100000 := by
  have hC : (oldC ++ newC).length = (oldP ++ newP).length := by
    rw [List.length_append, List.length_append, h1, h2]
  refine ⟨?_, ?_, ?_⟩
  · by_cases he : newP.isEmpty = true
    · have hnp : newP = [] := List.isEmpty_iff.mp he
      have hnc : newC = [] := by
        subst hnp
        cases newC with
        | nil => rfl
        | cons a l => simp at h2
      subst hnp hnc
      have hval : map3dAccum true oldP oldC [] ([] : List β) = (oldP, oldC) := by
        simp [map3dAccum]
      have hk : (oldP ++ ([] : List α)).length - 100000 = 0 := by
        rw [List.append_nil]
        omega
      rw [hval, hk, List.drop_zero, List.drop_zero, List.append_nil, List.append_nil]
    · by_cases hover : (oldP ++ newP).length > 100000
      · unfold map3dAccum
        rw [if_pos (show (true : Bool) ∧ ¬ newP.isEmpty = true from ⟨rfl, he⟩)]
        rw [if_pos hover]
      · have hk : (oldP ++ newP).length - 100000 = 0 := by omega
        unfold map3dAccum
        rw [if_pos (show (true : Bool) ∧ ¬ newP.isEmpty = true from ⟨rfl, he⟩)]
        rw [if_neg hover, hk, List.drop_zero, List.drop_zero]
  · rw [List.length_drop, List.length_drop, hC]
  · rw [List.length_drop]
    omega

/-- Witness for C9: a concrete small accumulation step. -/
theorem map3d_accum_fifo_w :
    (map3dAccum true [1] [10] [2] [20] : List Nat × List Nat) =
      ((([1] ++ [2] : List Nat)).drop ((([1] ++ [2] : List Nat)).length - 100000),
       (([10] ++ [20] : List Nat)).drop ((([1] ++ [2] : List Nat)).length - 100000)) ∧
    ((([1] ++ [2] : List Nat)).drop ((([1] ++ [2] : List Nat)).length - 100000)).length =
      ((([10] ++ [20] : List Nat)).drop ((([1] ++ [2] : List Nat)).length - 100000)).length ∧
    ((([1] ++ [2] : List Nat)).drop ((([1] ++ [2] : List Nat)).length - 100000)).length ≤
      100000 :=
  map3d_accum_fifo Nat Nat [1] [10] [2] [20] (by decide) (by decide) (by decide)

/-- C10 (corrected): in every datagram receive path EXCEPT the raw-depth
receiver, the extracted payload is exactly the bytes between the fixed header
and the end of what was actually received (`n` bytes, capped by the receive
buffer), the declared `payload_size` being used only for range validation and
never to size the slice; a datagram whose declared size exceeds the available
bytes still has its short payload passed onward (shown for `receivePacket`).
The raw-depth path (`rawReceivePacket`, submarine_receiver_raw.cpp) is the
exception the counterexample forces: its slice IS sized by the declared
`data_size`, so it can include buffer bytes that were never received. -/
theorem datagram_payload_slice (dgram : List Nat) :
    (∀ (fid ft : Int) (pl : List Nat),
        receivePacket dgram = some (fid, ft, pl) → pl = (dgram.take 65536).drop 12) ∧
    (∀ (ft : Int) (pl : List Nat),
        receiveFrameSlice dgram = some (ft, pl) → pl = (dgram.take 65536).drop 12) ∧
    (∀ (fid : Int) (pl : List Nat),
        colorReceiveFrameSlice dgram = some (fid, pl) → pl = (dgram.take 65536).drop 8) ∧
    (∀ (fid : Int) (pl : List Nat),
        depth3dRawReceiveSlice dgram = some (fid, pl) → pl = (dgram.take 65536).drop 8) ∧
    (∀ (fid ft : Int) (pl : List Nat),
        udpSwitchableReceiveSlice dgram = some (fid, ft, pl) →
        pl = (dgram.take 65536).drop 12) ∧
    (¬ (dgram.take 65536).length < 12 →
      ¬ (readI32 (dgram.take 65536) 8 ≤ 0 ∨ readI32 (dgram.take 65536) 8 > 5000000) →
      receivePacket dgram =
        some (readI32 (dgram.take 65536) 0, readI32 (dgram.take 65536) 4,
          (dgram.take 65536).drop 12)) ∧
    (∀ (fid : Int) (pl : List Nat),
        rawReceivePacket dgram = some (fid, pl) →
        pl = (((dgram.take 2000000) ++
            List.replicate (2000000 - (dgram.take 2000000).length) 0).drop 8).take
          (readI32 (dgram.take 2000000) 4).toNat) := by
  refine ⟨?_, ?_, ?_, ?_, ?_, ?_, ?_⟩
  · intro fid ft pl h
    simp only [receivePacket] at h
    split at h
    · exact absurd h (by simp)
    · split at h
      · exact absurd h (by simp)
      · simp only [Option.some.injEq, Prod.mk.injEq] at h
        exact h.2.2.symm
  · intro ft pl h
    simp only [receiveFrameSlice] at h
    split at h
    · exact absurd h (by simp)
    · split at h
      · exact absurd h (by simp)
      · simp only [Option.some.injEq, Prod.mk.injEq] at h
        exact h.2.symm
  · intro fid pl h
    simp only [colorReceiveFrameSlice] at h
    split at h
    · exact absurd h (by simp)
    · split at h
      · exact absurd h (by simp)
      · simp only [Option.some.injEq, Prod.mk.injEq] at h
        exact h.2.symm
  · intro fid pl h
    simp only [depth3dRawReceiveSlice] at h
    split at h
    · exact absurd h (by simp)
    · split at h
      · exact absurd h (by simp)
      · simp only [Option.some.injEq, Prod.mk.injEq] at h
        exact h.2.symm
  · intro fid ft pl h
    simp only [udpSwitchableReceiveSlice] at h
    split at h
    · exact absurd h (by simp)
    · split at h
      · simp only [Option.some.injEq, Prod.mk.injEq] at h
        exact h.2.2.symm
      · exact absurd h (by simp)
  · intro hl hd
    simp only [receivePacket]
    rw [if_neg hl, if_neg hd]
  · intro fid pl h
    simp only [rawReceivePacket] at h
    split at h
    · exact absurd h (by simp)
    · split at h
      · exact absurd h (by simp)
      · simp only [Option.some.injEq, Prod.mk.injEq] at h
        exact h.2.symm

/-- Counterexample to C10 as stated: a 15-byte datagram for the raw-depth
receiver — header `frame_id = 1`, declared `data_size = 20` — followed by
only 3 received payload bytes `[5, 6, 7]`. `rawReceivePacket` returns a
20-byte payload sized from the declared field: the 3 received bytes followed
by 17 zero bytes of the receive buffer that were never received, which is not
the actually-received slice `[5, 6, 7]`. -/
theorem rawReceivePacket_uses_declared_size :
    rawReceivePacket (i32Bytes 1 ++ i32Bytes 20 ++ [5, 6, 7]) =
      some (1, ([5, 6, 7] : List Nat) ++ List.replicate 17 0) ∧
    (i32Bytes 1 ++ i32Bytes 20 ++ [5, 6, 7]).drop 8 = [5, 6, 7] ∧
    (([5, 6, 7] : List Nat) ++ List.replicate 17 0) ≠ [5, 6, 7] := by
  refine ⟨by decide, by decide, by decide⟩

/-- Witness for C10: a datagram declaring 50 payload bytes with only 10
present is accepted with the 10 actually-received bytes as payload. -/
theorem datagram_payload_slice_w :
    receivePacket (i32Bytes 2 ++ i32Bytes 3 ++ i32Bytes 50 ++ List.range 10) =
      some
        (readI32 ((i32Bytes 2 ++ i32Bytes 3 ++ i32Bytes 50 ++ List.range 10).take 65536) 0,
         readI32 ((i32Bytes 2 ++ i32Bytes 3 ++ i32Bytes 50 ++ List.range 10).take 65536) 4,
         ((i32Bytes 2 ++ i32Bytes 3 ++ i32Bytes 50 ++ List.range 10).take 65536).drop 12) :=
  (datagram_payload_slice (i32Bytes 2 ++ i32Bytes 3 ++ i32Bytes 50 ++ List.range 10)).2.2.2.2.2.1
    (by decide) (by decide)

end Submarine
